import Mathlib

/-!
Shallow embedding of the two pipelines of `renakoamaori/scripts-de-musica`:

* `CONVERTIR_MUSICA_A_MP3/audiomp3.py` — the transcode-or-copy pipeline
  (`convert_or_copy`, `main_script`), embedded in namespace `AudioMp3`;
* `METADATOS_MUSICA/audioanalysis.py` — the metadata pipeline
  (`normalize_number_field`, `get_duration_and_bitrate`, `analyze_library`),
  embedded in namespace `AudioAnalysis`.

File paths are modelled as `String`s; the filesystem and subprocess calls a
run of `convert_or_copy` performs (`Path.relative_to`, `Path.mkdir`,
`Path.exists`, `subprocess.run(["ffmpeg", ...])`, `shutil.copy2`) are modelled
as an explicit `World` record holding each call's response, `Except` for the
calls that can raise.  Python floats are modelled as exact rationals (`ℚ`).
-/

/-- Python `round` at a rational, half-to-even (banker's rounding).  Python
rounds the IEEE-754 double; here the value is an exact rational, so ties are
resolved exactly. -/
def roundHalfEven (q : ℚ) : ℤ :=
  let f := ⌊q⌋
  let r := q - f
  if r < 1 / 2 then f
  else if 1 / 2 < r then f + 1
  else if f % 2 = 0 then f else f + 1

/-- Python `round(x, 1)`. -/
def pyRound1 (q : ℚ) : ℚ := (roundHalfEven (q * 10) : ℚ) / 10

/-- Python `round(x, 2)`. -/
def pyRound2 (q : ℚ) : ℚ := (roundHalfEven (q * 100) : ℚ) / 100

namespace AudioMp3

/-- Final path component of a POSIX-style path string: the characters after
the last `/` (`pathlib.PurePath.name`, simplified to the cases reachable
here — no trailing-slash or drive handling). -/
def lastComponent (p : String) : String :=
  ⟨(p.toList.reverse.takeWhile (fun c => c ≠ '/')).reverse⟩

/-- Index of the last `.` in a character list, if any. -/
def lastDotIdx (cs : List Char) : Option Nat :=
  match cs.reverse.findIdx? (fun c => c = '.') with
  | none => none
  | some j => some (cs.length - 1 - j)

/-- `pathlib.PurePath.suffix`: the final component's extension including the
dot, and `""` when the last dot of the name is absent, leading, or trailing
(pathlib keeps the suffix only when `0 < i < len(name) - 1` for `i` the index
of the last dot). -/
def pathSuffix (p : String) : String :=
  let name := (lastComponent p).toList
  match lastDotIdx name with
  | none => ""
  | some i => if 0 < i ∧ i < name.length - 1 then ⟨name.drop i⟩ else ""

/-- `pathlib.PurePath.with_suffix`: drop the existing suffix (as computed by
`pathSuffix`) and append the new one. -/
def withSuffix (p newSuffix : String) : String :=
  let old := pathSuffix p
  let cs := p.toList
  (⟨cs.take (cs.length - old.length)⟩ : String) ++ newSuffix

/-- Python `str.lower()` restricted to the ASCII range the paths and tool
diagnostics here use, written over the character list so that it reduces
definitionally. -/
def strLower (s : String) : String := ⟨s.toList.map Char.toLower⟩

/-- `output_dir / rel_path` of `pathlib`, for the string model. -/
def joinPath (dir p : String) : String := dir ++ "/" ++ p

/-- `AUDIO_FORMATS = {".flac", ".wav", ".ogg", ".m4a"}`
(audiomp3.py line 33). -/
def AUDIO_FORMATS : List String := [".flac", ".wav", ".ogg", ".m4a"]

/-- `"error" in result.stderr.lower()` (audiomp3.py line 78): case-insensitive
substring check on the tool's diagnostic stream. -/
def containsErrorText (stderr : String) : Bool :=
  let s := (strLower stderr).toList
  let pat := "error".toList
  (List.range (s.length + 1)).any (fun i => pat.isPrefixOf (s.drop i))

/-- Result of `subprocess.run(["ffmpeg", ...], capture_output=True, ...)`:
exit status and captured diagnostic stream. -/
structure FfmpegResult where
  returncode : Int
  stderr : String
deriving DecidableEq, Repr

/-- Outcome tags of `convert_or_copy` (audiomp3.py line 42): the
`Literal["converted", "copied", "skipped", "error"]` together with the
payload (`Path` for the first three, `(Path, str)` for `error`). -/
inductive Outcome where
  | converted : String → Outcome
  | copied : String → Outcome
  | skipped : String → Outcome
  | error : String → String → Outcome
deriving DecidableEq, Repr

/-- Side effects a single `convert_or_copy` call performed: whether
`subprocess.run` (the external transform tool) was started, and whether
`shutil.copy2` was started.  `⟨false, false⟩` means neither ran, so the
destination file was not touched. -/
structure Effects where
  ffmpegInvoked : Bool
  copyInvoked : Bool
deriving DecidableEq, Repr

/-- Responses of the filesystem / subprocess calls one `convert_or_copy` run
makes, in program order:

* `relPath` — `file_path.relative_to(input_dir)` (line 46); `.error` models
  the `ValueError` raised when `file_path` is not under `input_dir`;
* `mkdirResult` — `out_file.parent.mkdir(parents=True, exist_ok=True)`
  (line 48); `.error` models an `OSError`;
* `destExists` — `out_file.exists()` (lines 58 and 84), queried at the path
  the code computed;
* `ffmpegRun` — `subprocess.run(["ffmpeg", ...])` (line 69); `.error` models
  a launch failure such as `FileNotFoundError`;
* `copyResult` — `shutil.copy2(file_path, out_file)` (line 85). -/
structure World where
  relPath : Except String String
  mkdirResult : Except String Unit
  destExists : String → Bool
  ffmpegRun : Except String FfmpegResult
  copyResult : Except String Unit

/-- `convert_or_copy(file_path, input_dir, output_dir)` (audiomp3.py lines
42–89).  The returned `Except` is the Python control flow: `.error e` is an
exception propagating to the caller, `.ok (outcome, effects)` a normal
return.  `rel_path` and the `mkdir` call sit BEFORE the `try:` of line 52,
so their exceptions propagate; everything from the `ext in AUDIO_FORMATS`
test onwards is inside the `try:`/`except Exception` and any exception there
becomes an `("error", (file_path, str(e)))` return. -/
def convert_or_copy (file_path output_dir : String) (w : World) :
    Except String (Outcome × Effects) :=
  match w.relPath with
  | .error e => .error e
  | .ok rel_path =>
    let out_file := joinPath output_dir rel_path
    match w.mkdirResult with
    | .error e => .error e
    | .ok _ =>
      let ext := strLower (pathSuffix file_path)
      if ext ∈ AUDIO_FORMATS then
        let out_file := withSuffix out_file ".mp3"
        if w.destExists out_file then
          .ok (.skipped out_file, ⟨false, false⟩)
        else
          match w.ffmpegRun with
          | .error e => .ok (.error file_path e, ⟨true, false⟩)
          | .ok result =>
            if result.returncode ≠ 0 ∨ containsErrorText result.stderr = true then
              .ok (.error file_path result.stderr, ⟨true, false⟩)
            else
              .ok (.converted out_file, ⟨true, false⟩)
      else
        if w.destExists out_file = false then
          match w.copyResult with
          | .error e => .ok (.error file_path e, ⟨false, true⟩)
          | .ok _ => .ok (.copied out_file, ⟨false, true⟩)
        else
          .ok (.copied out_file, ⟨false, false⟩)

/-- Running result lists of `main_script` (audiomp3.py line 119):
`all_results = {"converted": [], "copied": [], "error": []}` plus the parallel
`errores` list; an `error` entry is `{"file": f_path.name, "error": msg}`. -/
structure Results where
  converted : List String
  copied : List String
  errors : List (String × String)
deriving DecidableEq, Repr

/-- One iteration of the collection loop (audiomp3.py lines 131–139): an
`error` outcome is appended to `all_results["error"]` keyed by the source
file's final name component; otherwise `all_results[status].append(...)` runs
— and the dict built on line 119 has NO `"skipped"` key, so a `skipped`
outcome raises `KeyError`, modelled as `.error`. -/
def recordOutcome (acc : Results) : Outcome → Except String Results
  | .converted d => .ok { acc with converted := acc.converted ++ [d] }
  | .copied d => .ok { acc with copied := acc.copied ++ [d] }
  | .error f msg => .ok { acc with errors := acc.errors ++ [(lastComponent f, msg)] }
  | .skipped _ => .error "KeyError: 'skipped'"

/-- `speed = pbar.n / elapsed if elapsed > 0 else 0` (audiomp3.py line 144):
per-event throughput in files per second. -/
def progressSpeed (n : ℕ) (elapsed : ℚ) : ℚ :=
  if elapsed > 0 then (n : ℚ) / elapsed else 0

/-- `remaining = total_files - pbar.n; eta = remaining / speed if speed > 0
else 0` (audiomp3.py lines 145–146). -/
def progressEta (total_files n : ℕ) (speed : ℚ) : ℚ :=
  if speed > 0 then ((total_files : ℚ) - (n : ℚ)) / speed else 0

/-- `round(total_tracks / elapsed_total, 2) if elapsed_total > 0 else 0`
(audiomp3.py line 168): the summary's `average_speed_tracks_per_sec`. -/
def averageSpeed (total_tracks : ℕ) (elapsed_total : ℚ) : ℚ :=
  if elapsed_total > 0 then pyRound2 ((total_tracks : ℚ) / elapsed_total) else 0

/-- The summary document written by `main_script` (audiomp3.py lines
162–169), minus the `total_time_sec` wall-clock field. -/
structure Summary where
  converted : List String
  copied : List String
  failed : List (String × String)
  total_files_processed : ℕ
  average_speed_tracks_per_sec : ℚ
deriving DecidableEq, Repr

/-- The processing-and-summary phase of `main_script` (audiomp3.py lines
119–170) over a non-empty enumerated file list.  `tasks` pairs each
enumerated `file_path` with the `World` its worker observes, listed in
completion order; `elapsed_total` is the wall-clock reading of line 151.
`future.result()` re-raises any exception the worker task raised, and the
collection loop itself raises `KeyError` on a `skipped` outcome
(`recordOutcome`); either aborts the run before any summary is written,
modelled by the `Except` short-circuit.  `total_tracks` is line 152:
`len(converted) + len(copied) + len(error)`. -/
def main_script (output_dir : String) (tasks : List (String × World))
    (elapsed_total : ℚ) : Except String Summary := do
  let r ← tasks.foldlM (fun acc t => do
      let (o, _) ← convert_or_copy t.1 output_dir t.2
      recordOutcome acc o) (⟨[], [], []⟩ : Results)
  let total_tracks := r.converted.length + r.copied.length + r.errors.length
  pure ⟨r.converted, r.copied, r.errors, total_tracks,
        averageSpeed total_tracks elapsed_total⟩

end AudioMp3

namespace AudioAnalysis

/-- Python `str.split('/')` on a character list (audioanalysis.py line 118).
Splitting an `n`-separator string yields `n + 1` parts; adjacent separators
yield empty parts. -/
def splitSlash : List Char → List (List Char)
  | [] => [[]]
  | c :: rest =>
    match splitSlash rest with
    | [] => [[]]
    | h :: t => if c = '/' then [] :: h :: t else (c :: h) :: t

/-- Python `str.isdigit()`: non-empty and every character a digit (restricted
to the ASCII digits the track/disc fields carry). -/
def pyIsDigit (cs : List Char) : Bool :=
  !cs.isEmpty && cs.all (fun c => c.isDigit)

/-- `normalize_number_field(field)` (audioanalysis.py lines 110–125): empty
input maps to `""`; a value containing `/` is kept exactly when it splits
into two digit parts; otherwise the value is kept exactly when it is itself
all digits; everything else maps to `""`.  The callers only pass strings, so
`str(field)` is the identity and `not field` is the emptiness test. -/
def normalize_number_field (field : String) : String :=
  if field = "" then ""
  else
    let field_str := field
    let cs := field_str.toList
    if '/' ∈ cs then
      match splitSlash cs with
      | [a, b] => if pyIsDigit a && pyIsDigit b then field_str else ""
      | _ => ""
    else if pyIsDigit cs then field_str else ""

/-- The spec's side condition for keeping a track/disc value: a plain integer
(digit string), or an `int/int` pair — two digit strings separated by a
single `/`. -/
def GoodNumberField (s : String) : Prop :=
  pyIsDigit s.toList = true ∨
  ∃ a b, s.toList = a ++ '/' :: b ∧ pyIsDigit a = true ∧ pyIsDigit b = true

/-- The attributes of `audio.info` that `get_duration_and_bitrate` reads:
`length` (seconds) and `bitrate` (bits per second), each `none` when
`hasattr` is false. -/
structure AudioInfo where
  length : Option ℚ
  bitrate : Option ℕ
deriving DecidableEq, Repr

/-- An opened audio file as `get_duration_and_bitrate` sees it: `info = none`
models a falsy `audio.info`; `sizeBytes = none` models
`os.path.getsize(filepath)` raising (the `except` branches). -/
structure AudioFile where
  info : Option AudioInfo
  sizeBytes : Option ℕ
deriving DecidableEq, Repr

/-- `duration` after the two `hasattr` guards (audioanalysis.py lines 72,
76–77): `audio.info.length` when present, else the initial `0`. -/
def parsedDuration (i : AudioInfo) : ℚ := i.length.getD 0

/-- `bitrate` after the two `hasattr` guards (audioanalysis.py lines 73,
78–79): `audio.info.bitrate // 1000` when present, else the initial `0`. -/
def parsedBitrate (i : AudioInfo) : ℤ :=
  match i.bitrate with
  | some b => ((b / 1000 : ℕ) : ℤ)
  | none => 0

/-- `get_duration_and_bitrate(audio, filepath)` (audioanalysis.py lines
71–105).  Three-tier fallback on the parsed values: bitrate missing with a
positive duration → `int((file_size * 8) / (duration * 1000))` (Python
`int()` truncates; the operands here are non-negative so this is the floor);
duration missing with a positive bitrate → `(file_size * 8) / (bitrate *
1000)`; both missing → fixed 192 kbps and the duration derived from it.  A
`getsize` fault leaves the field at `0` (the `except` arms). -/
def get_duration_and_bitrate (audio : AudioFile) : ℚ × ℤ :=
  match audio.info with
  | none => (0, 0)
  | some i =>
    let duration := parsedDuration i
    let bitrate := parsedBitrate i
    if bitrate = 0 ∧ duration > 0 then
      match audio.sizeBytes with
      | some file_size => (duration, ⌊(file_size * 8 : ℚ) / (duration * 1000)⌋)
      | none => (duration, 0)
    else if duration = 0 ∧ bitrate > 0 then
      match audio.sizeBytes with
      | some file_size => ((file_size * 8 : ℚ) / ((bitrate : ℚ) * 1000), bitrate)
      | none => (0, bitrate)
    else if duration = 0 ∧ bitrate = 0 then
      match audio.sizeBytes with
      | some file_size => ((file_size * 8 : ℚ) / (192 * 1000), 192)
      | none => (0, 0)
    else (duration, bitrate)

/-- The fields of an `AudioMetadataRecord` that `analyze_library` reads
(audioanalysis.py lines 131–145 build the full record; `path`, `title`,
`year`, `track`, `disc`, `publisher` and `composer` never enter the
analysis). -/
structure AudioMetadataRecord where
  duration : ℚ
  bitrate : ℤ
  artist : String
  album_artist : String
  album : String
  genre : String
deriving DecidableEq, Repr

/-- The numeric fields of the summary dict built by `analyze_library`
(audioanalysis.py lines 197–209); the wall-clock, `strftime`-formatted,
set-cardinality and `Counter` fields are not modelled — no claim touches
them. -/
structure LibrarySummary where
  archivos_analizados : ℕ
  bitrate_promedio_kbps : ℚ
  duracion_promedio_segundos : ℚ
deriving DecidableEq, Repr

/-- `analyze_library(metadata_list, elapsed_time)` (audioanalysis.py lines
169–211), numeric part: `total_bitrate` sums `m['bitrate']` over the records
with `m['bitrate'] > 0` (line 179), but both averages divide by
`count = len(metadata_list)` (lines 180–181), the `if count` guard being
Python integer truthiness. -/
def analyze_library (metadata_list : List AudioMetadataRecord) : LibrarySummary :=
  let count := metadata_list.length
  let total_duration := (metadata_list.map (·.duration)).sum
  let total_bitrate := ((metadata_list.filter (fun m => m.bitrate > 0)).map (·.bitrate)).sum
  let bitrate_avg : ℚ := if count ≠ 0 then (total_bitrate : ℚ) / (count : ℚ) else 0
  let duration_avg : ℚ := if count ≠ 0 then total_duration / (count : ℚ) else 0
  ⟨count, pyRound1 bitrate_avg, pyRound2 duration_avg⟩

end AudioAnalysis

namespace AudioMp3

/-- The worker's view on a re-run over a partially completed tree: the
destination `out/song.mp3` already exists, every setup call succeeds. -/
def worldSkip : World :=
  ⟨.ok "song.flac", .ok (), fun _ => true, .ok ⟨0, ""⟩, .ok ()⟩

/-- A worker's view where every call succeeds and no destination exists. -/
def worldGood : World :=
  ⟨.ok "a.flac", .ok (), fun _ => false, .ok ⟨0, ""⟩, .ok ()⟩

/-- A worker's view where `file_path.relative_to(input_dir)` raises
`ValueError` because the file is not under the input root. -/
def worldBadRel : World :=
  ⟨.error "ValueError: not in the subpath", .ok (), fun _ => false, .ok ⟨0, ""⟩, .ok ()⟩

/-- A worker's view where the transform tool exits with status 1. -/
def worldFfmpegFail : World :=
  ⟨.ok "a.flac", .ok (), fun _ => false, .ok ⟨1, "boom"⟩, .ok ()⟩

/-- C1: the claim fails on the code.  On a re-run where the destination
`out/song.mp3` already exists, the worker returns a `skipped` outcome, but
the collection loop of `main_script` does `all_results[status].append(...)`
against a dict with no `"skipped"` key: the run aborts with `KeyError` and no
summary is written, so the enumerated file yields no recorded outcome and no
`total_files_processed` field exists at all. -/
theorem main_script_keyerror_on_skipped :
    convert_or_copy "in/song.flac" "out" worldSkip =
      .ok (.skipped "out/song.mp3", ⟨false, false⟩) ∧
    main_script "out" [("in/song.flac", worldSkip)] 1 =
      .error "KeyError: 'skipped'" := ⟨rfl, rfl⟩

/-- C2 counterexample: `convert_or_copy` DOES propagate an exception.
`rel_path = file_path.relative_to(input_dir)` sits before the `try:` block,
so the `ValueError` raised for a source outside the input root escapes to
the caller instead of becoming an `error` outcome. -/
theorem convert_or_copy_relative_to_raises :
    convert_or_copy "/elsewhere/song.flac" "out" worldBadRel =
      .error "ValueError: not in the subpath" := rfl

/-- C2 amended: once the two setup calls that precede the `try:` block
(`relative_to` and the parent-directory `mkdir`) have succeeded,
`convert_or_copy` returns exactly one tagged outcome and propagates no
exception, whatever the tool, the filesystem or the copy do. -/
theorem convert_or_copy_no_exception_after_setup
    (file_path output_dir rel : String) (w : World)
    (hrel : w.relPath = .ok rel) (hmk : w.mkdirResult = .ok ()) :
    ∃ o e, convert_or_copy file_path output_dir w = .ok (o, e) := by
  obtain ⟨rp, mk, de, ff, cp⟩ := w
  simp only at hrel hmk
  subst hrel hmk
  cases ff <;> cases cp <;>
    simp only [convert_or_copy] <;> split_ifs <;> exact ⟨_, _, rfl⟩

/-- C2 amended, witness at a concrete worker view. -/
theorem convert_or_copy_no_exception_after_setup_witness :
    ∃ o e, convert_or_copy "in/a.flac" "out" worldGood = .ok (o, e) :=
  convert_or_copy_no_exception_after_setup "in/a.flac" "out" "a.flac" worldGood rfl rfl

/-- C4: for a transformable file whose destination `.mp3` already exists,
`convert_or_copy` returns `skipped` with that destination, and neither the
transform tool nor the copy runs, so the existing destination file is left
untouched. -/
theorem convert_or_copy_skips_existing_dest
    (file_path output_dir rel : String) (w : World)
    (hrel : w.relPath = .ok rel) (hmk : w.mkdirResult = .ok ())
    (hext : strLower (pathSuffix file_path) ∈ AUDIO_FORMATS)
    (hex : w.destExists (withSuffix (joinPath output_dir rel) ".mp3") = true) :
    convert_or_copy file_path output_dir w =
      .ok (.skipped (withSuffix (joinPath output_dir rel) ".mp3"), ⟨false, false⟩) := by
  simp only [convert_or_copy, hrel, hmk]
  simp [hext, hex]

/-- C4 witness: a concrete skipped re-run. -/
theorem convert_or_copy_skips_existing_dest_witness :
    convert_or_copy "in/song.flac" "out" worldSkip =
      .ok (.skipped (withSuffix (joinPath "out" "song.flac") ".mp3"), ⟨false, false⟩) :=
  convert_or_copy_skips_existing_dest "in/song.flac" "out" "song.flac" worldSkip
    rfl rfl (by decide) rfl

/-- C3: for a transformable file whose destination `.mp3` does not yet exist
and whose transform tool run completes, the outcome is `error` — carrying the
original source path and the tool's diagnostic stream — exactly when the tool
exits non-zero or its diagnostic stream contains the text `error`
case-insensitively; otherwise the outcome is `converted` with the
destination path. -/
theorem convert_or_copy_transform_failure_iff
    (file_path output_dir rel : String) (w : World) (result : FfmpegResult)
    (hrel : w.relPath = .ok rel) (hmk : w.mkdirResult = .ok ())
    (hext : strLower (pathSuffix file_path) ∈ AUDIO_FORMATS)
    (hnew : w.destExists (withSuffix (joinPath output_dir rel) ".mp3") = false)
    (hrun : w.ffmpegRun = .ok result) :
    (convert_or_copy file_path output_dir w =
        .ok (.error file_path result.stderr, ⟨true, false⟩) ↔
      result.returncode ≠ 0 ∨ containsErrorText result.stderr = true) ∧
    (result.returncode = 0 → containsErrorText result.stderr = false →
      convert_or_copy file_path output_dir w =
        .ok (.converted (withSuffix (joinPath output_dir rel) ".mp3"), ⟨true, false⟩)) := by
  simp only [convert_or_copy, hrel, hmk, hrun]
  rw [if_pos hext, if_neg (by simp [hnew])]
  by_cases hc : result.returncode ≠ 0 ∨ containsErrorText result.stderr = true
  · rw [if_pos hc]
    exact ⟨by simpa using hc, fun h0 hf => by simp [h0, hf] at hc⟩
  · rw [if_neg hc]
    exact ⟨by simpa using hc, fun _ _ => rfl⟩

/-- C3 witness: a tool exiting with status 1 yields the `error` outcome with
the source path and the diagnostic text. -/
theorem convert_or_copy_transform_failure_iff_witness :
    convert_or_copy "in/a.flac" "out" worldFfmpegFail =
      .ok (.error "in/a.flac" "boom", ⟨true, false⟩) :=
  (convert_or_copy_transform_failure_iff "in/a.flac" "out" "a.flac" worldFfmpegFail
    ⟨1, "boom"⟩ rfl rfl (by decide) rfl rfl).1.mpr (Or.inl (by decide))

/-- C5: classification is pure by extension — a file whose lower-cased
extension is in `AUDIO_FORMATS` never yields `copied`, and a file whose
lower-cased extension is not in `AUDIO_FORMATS` never yields `converted`,
whatever the filesystem and the tool respond. -/
theorem convert_or_copy_classification_by_extension
    (file_path output_dir : String) (w : World) :
    (strLower (pathSuffix file_path) ∈ AUDIO_FORMATS →
      ∀ d e, convert_or_copy file_path output_dir w ≠ .ok (.copied d, e)) ∧
    (strLower (pathSuffix file_path) ∉ AUDIO_FORMATS →
      ∀ d e, convert_or_copy file_path output_dir w ≠ .ok (.converted d, e)) := by
  obtain ⟨rp, mk, de, ff, cp⟩ := w
  constructor <;> intro hext d e h <;>
    cases rp <;> cases mk <;> cases ff <;> cases cp <;>
      revert h <;> simp only [convert_or_copy] <;>
      (try split_ifs) <;> simp_all

/-- C5 witness: a `.flac` input is never reported `copied`. -/
theorem convert_or_copy_classification_by_extension_witness :
    strLower (pathSuffix "in/a.flac") ∈ AUDIO_FORMATS ∧
    convert_or_copy "in/a.flac" "out" worldGood ≠
      .ok (.copied "out/a.flac", ⟨false, true⟩) :=
  ⟨by decide,
   (convert_or_copy_classification_by_extension "in/a.flac" "out" worldGood).1
     (by decide) "out/a.flac" ⟨false, true⟩⟩

/-- C9: the per-event throughput is 0 when the elapsed time is 0, the ETA is
0 when the throughput is 0, and the drain-time average speed is 0 when the
total elapsed time is 0 — each guarded division defaults to 0 instead of
faulting. -/
theorem progress_division_guards (n total_files total_tracks : ℕ) :
    progressSpeed n 0 = 0 ∧ progressEta total_files n 0 = 0 ∧
    averageSpeed total_tracks 0 = 0 := by
  refine ⟨?_, ?_, ?_⟩ <;> simp [progressSpeed, progressEta, averageSpeed]

/-- C10: a pass-through file whose destination already exists is reported
`copied` with that destination even though no copy runs (`copyInvoked =
false`), and a `skipped` outcome only ever arises for a file whose
lower-cased extension is in the transformable set. -/
theorem convert_or_copy_pass_through_existing :
    (∀ (file_path output_dir rel : String) (w : World),
      w.relPath = .ok rel → w.mkdirResult = .ok () →
      strLower (pathSuffix file_path) ∉ AUDIO_FORMATS →
      w.destExists (joinPath output_dir rel) = true →
      convert_or_copy file_path output_dir w =
        .ok (.copied (joinPath output_dir rel), ⟨false, false⟩)) ∧
    (∀ (file_path output_dir : String) (w : World) (d : String) (e : Effects),
      convert_or_copy file_path output_dir w = .ok (.skipped d, e) →
      strLower (pathSuffix file_path) ∈ AUDIO_FORMATS) := by
  constructor
  · intro fp od rel w hrel hmk hext hex
    simp only [convert_or_copy, hrel, hmk]
    simp [hext, hex]
  · intro fp od w d e h
    by_contra hext
    obtain ⟨rp, mk, de, ff, cp⟩ := w
    cases rp <;> cases mk <;> cases ff <;> cases cp <;>
      revert h <;> simp only [convert_or_copy] <;>
      (try split_ifs) <;> simp_all

/-- C10 witness: a concrete pass-through re-run. -/
theorem convert_or_copy_pass_through_existing_witness :
    convert_or_copy "in/cover.jpg" "out"
        ⟨.ok "cover.jpg", .ok (), fun _ => true, .ok ⟨0, ""⟩, .ok ()⟩ =
      .ok (.copied (joinPath "out" "cover.jpg"), ⟨false, false⟩) :=
  convert_or_copy_pass_through_existing.1 "in/cover.jpg" "out" "cover.jpg"
    ⟨.ok "cover.jpg", .ok (), fun _ => true, .ok ⟨0, ""⟩, .ok ()⟩
    rfl rfl (by decide) rfl

end AudioMp3

namespace AudioAnalysis

/-- A record whose bitrate the parser could not determine. -/
def recZero : AudioMetadataRecord := ⟨200, 0, "", "", "", ""⟩

/-- A record with a known 100 kbps bitrate. -/
def recPos : AudioMetadataRecord := ⟨200, 100, "", "", "", ""⟩

/-- C8 counterexample: a record with bitrate 0 DOES affect the reported
average.  For `[recZero, recPos]` the code reports `100 / 2 = 50`, not the
`100 / 1 = 100` that an average over the positive-bitrate records alone
would give: the sum skips zero-bitrate records but the divisor is the length
of the whole list. -/
theorem analyze_library_zero_bitrate_shifts_average :
    (analyze_library [recZero, recPos]).bitrate_promedio_kbps = 50 ∧
    (analyze_library [recPos]).bitrate_promedio_kbps = 100 ∧
    (50 : ℚ) ≠ 100 := by
  refine ⟨?_, ?_, by norm_num⟩ <;>
    · simp [analyze_library, recZero, recPos, pyRound1, roundHalfEven]
      norm_num

/-- C8 amended: the reported average bitrate is the sum of the bitrates of
the records with bitrate > 0 divided by the TOTAL number of records
(zero-bitrate ones included), rounded half-to-even to one decimal. -/
theorem analyze_library_bitrate_average
    (l : List AudioMetadataRecord) (h : l ≠ []) :
    (analyze_library l).bitrate_promedio_kbps =
      pyRound1 (((((l.filter (fun m => m.bitrate > 0)).map (·.bitrate)).sum : ℤ) : ℚ) /
        (l.length : ℚ)) := by
  have hlen : l.length ≠ 0 := by simpa using h
  simp [analyze_library, hlen]
  rfl

/-- `splitSlash` always yields at least one part. -/
theorem splitSlash_ne_nil (cs : List Char) : splitSlash cs ≠ [] := by
  cases cs with
  | nil => simp [splitSlash]
  | cons c rest =>
    simp only [splitSlash]
    cases h : splitSlash rest with
    | nil => simp
    | cons hd tl => split_ifs <;> simp

/-- Splitting a separator-free list yields the list itself as the only
part. -/
theorem splitSlash_no_slash (cs : List Char) (h : '/' ∉ cs) :
    splitSlash cs = [cs] := by
  induction cs with
  | nil => rfl
  | cons c rest ih =>
    have hc : c ≠ '/' := fun hh => h (by simp [hh])
    have hr : '/' ∉ rest := fun hh => h (by simp [hh])
    simp [splitSlash, ih hr, hc]

/-- Splitting at the first separator: a separator-free head part comes off
whole. -/
theorem splitSlash_append (a b : List Char) (h : '/' ∉ a) :
    splitSlash (a ++ '/' :: b) = a :: splitSlash b := by
  induction a with
  | nil =>
    cases hh : splitSlash b with
    | nil => exact absurd hh (splitSlash_ne_nil b)
    | cons hd tl => simp [splitSlash, hh]
  | cons c a ih =>
    have hc : c ≠ '/' := fun hh => h (by simp [hh])
    have ha : '/' ∉ a := fun hh => h (by simp [hh])
    simp [splitSlash, ih ha, hc]

/-- A single-part split means the input had no separator. -/
theorem splitSlash_eq_single (cs x : List Char) (h : splitSlash cs = [x]) :
    cs = x ∧ '/' ∉ x := by
  induction cs generalizing x with
  | nil =>
    simp only [splitSlash, List.cons.injEq, and_true] at h
    subst h
    exact ⟨rfl, by simp⟩
  | cons c rest ih =>
    simp only [splitSlash] at h
    split at h
    next heq => exact absurd heq (splitSlash_ne_nil rest)
    next hd tl heq =>
      split_ifs at h with hc
      · simp at h
      · obtain ⟨hx, htl⟩ : c :: hd = x ∧ tl = [] := by simpa using h
        subst htl
        obtain ⟨hr, hns⟩ := ih hd heq
        subst hx
        refine ⟨by rw [hr], fun hm => ?_⟩
        rcases List.mem_cons.mp hm with h1 | h1
        · exact hc h1.symm
        · exact hns h1

/-- A two-part split recovers the input as `first ++ '/' :: second`. -/
theorem splitSlash_eq_pair (cs a b : List Char) (h : splitSlash cs = [a, b]) :
    cs = a ++ '/' :: b := by
  induction cs generalizing a with
  | nil => simp [splitSlash] at h
  | cons c rest ih =>
    simp only [splitSlash] at h
    split at h
    next heq => exact absurd heq (splitSlash_ne_nil rest)
    next hd tl heq =>
      split_ifs at h with hc
      · obtain ⟨ha, hb, htl⟩ : [] = a ∧ hd = b ∧ tl = [] := by simpa using h
        subst htl
        obtain ⟨hr, -⟩ := splitSlash_eq_single rest hd heq
        subst hr
        simp [← ha, ← hb, hc]
      · obtain ⟨ha, htl⟩ : c :: hd = a ∧ tl = [b] := by simpa using h
        subst htl
        have hr := ih hd heq
        subst hr
        simp [← ha]

/-- A digit string is non-empty. -/
theorem ne_nil_of_pyIsDigit {cs : List Char} (h : pyIsDigit cs = true) :
    cs ≠ [] := by
  intro h0
  subst h0
  simp [pyIsDigit] at h

/-- A digit string contains no separator. -/
theorem no_slash_of_pyIsDigit {cs : List Char} (h : pyIsDigit cs = true) :
    '/' ∉ cs := by
  simp only [pyIsDigit, Bool.and_eq_true, List.all_eq_true] at h
  intro hm
  exact absurd (h.2 '/' hm) (by decide)

/-- C6: `normalize_number_field` keeps exactly the values that are a plain
digit string or an `int/int` pair of two digit strings separated by `/`, and
maps everything else (the empty string included) to `""`; the spec's five
examples are checked concretely. -/
theorem normalize_number_field_characterization :
    (∀ field : String,
      (GoodNumberField field → normalize_number_field field = field) ∧
      (¬ GoodNumberField field → normalize_number_field field = "")) ∧
    normalize_number_field "5" = "5" ∧ normalize_number_field "3/12" = "3/12" ∧
    normalize_number_field "a/3" = "" ∧ normalize_number_field "0" = "0" ∧
    normalize_number_field "" = "" := by
  refine ⟨fun field => ⟨?_, ?_⟩, by decide, by decide, by decide, by decide, rfl⟩
  · intro hg
    rcases hg with hdig | ⟨a, b, heq, hda, hdb⟩
    · have hne : field ≠ "" := by
        intro h0
        exact ne_nil_of_pyIsDigit hdig (by rw [h0]; rfl)
      have hns : '/' ∉ field.toList := no_slash_of_pyIsDigit hdig
      simp only [String.toList] at hns hdig
      simp [normalize_number_field, String.toList, hne, hns, hdig]
    · have hne : field ≠ "" := by
        intro h0
        rw [h0] at heq
        simp at heq
      have hmem : '/' ∈ field.toList := by rw [heq]; simp
      have hsp : splitSlash field.toList = [a, b] := by
        rw [heq, splitSlash_append a b (no_slash_of_pyIsDigit hda),
          splitSlash_no_slash b (no_slash_of_pyIsDigit hdb)]
      simp only [String.toList] at hmem hsp
      simp [normalize_number_field, String.toList, hne, hmem, hsp, hda, hdb]
  · intro hng
    by_cases hne : field = ""
    · simp [normalize_number_field, hne]
    · by_cases hmem : '/' ∈ field.toList
      · simp only [normalize_number_field, if_neg hne, if_pos hmem]
        rcases h1 : splitSlash field.toList with _ | ⟨a, rest⟩
        · rfl
        rcases rest with _ | ⟨b, rest2⟩
        · rfl
        rcases rest2 with _ | ⟨c, rest3⟩
        · by_cases hd : (pyIsDigit a && pyIsDigit b) = true
          · obtain ⟨hda, hdb⟩ : pyIsDigit a = true ∧ pyIsDigit b = true := by
              simpa using hd
            exact absurd
              (Or.inr ⟨a, b, splitSlash_eq_pair field.toList a b h1, hda, hdb⟩) hng
          · simp [hd]
        · rfl
      · have hd : pyIsDigit field.toList = false := by
          by_contra hh
          exact hng (Or.inl (by simpa using hh))
        simp only [String.toList] at hmem hd
        simp [normalize_number_field, String.toList, hne, hmem, hd]

/-- C6 witness: `"3/12"` satisfies the pair form and is kept verbatim. -/
theorem normalize_number_field_characterization_witness :
    GoodNumberField "3/12" ∧ normalize_number_field "3/12" = "3/12" := by
  have hg : GoodNumberField "3/12" :=
    Or.inr ⟨['3'], ['1', '2'], by decide, by decide, by decide⟩
  exact ⟨hg, (normalize_number_field_characterization.1 "3/12").1 hg⟩

/-- C7: the three-tier duration/bitrate fallback for a file with a known
size: both parsed values zero → bitrate exactly 192 and duration
`size*8/(192*1000)`; exactly one zero → the missing one estimated from the
file size under `size_bytes * 8 = bitrate_kbps * 1000 * duration_seconds`
(the bitrate estimate truncated to an integer, the duration estimate exact —
the derivation equation holds exactly for it); both positive → both used
unchanged. -/
theorem get_duration_and_bitrate_three_tier (i : AudioInfo) (file_size : ℕ) :
    (parsedDuration i = 0 ∧ parsedBitrate i = 0 →
      get_duration_and_bitrate ⟨some i, some file_size⟩ =
        ((file_size * 8 : ℚ) / (192 * 1000), 192)) ∧
    (parsedBitrate i = 0 → parsedDuration i > 0 →
      get_duration_and_bitrate ⟨some i, some file_size⟩ =
        (parsedDuration i, ⌊(file_size * 8 : ℚ) / (parsedDuration i * 1000)⌋)) ∧
    (parsedDuration i = 0 → parsedBitrate i > 0 →
      get_duration_and_bitrate ⟨some i, some file_size⟩ =
        ((file_size * 8 : ℚ) / ((parsedBitrate i : ℚ) * 1000), parsedBitrate i) ∧
      (parsedBitrate i : ℚ) * 1000 *
        ((file_size * 8 : ℚ) / ((parsedBitrate i : ℚ) * 1000)) = (file_size * 8 : ℚ)) ∧
    (parsedDuration i > 0 → parsedBitrate i > 0 →
      get_duration_and_bitrate ⟨some i, some file_size⟩ =
        (parsedDuration i, parsedBitrate i)) := by
  refine ⟨?_, ?_, ?_, ?_⟩
  · rintro ⟨hd, hb⟩
    simp [get_duration_and_bitrate, hd, hb]
  · intro hb hd
    simp [get_duration_and_bitrate, hb, hd]
  · intro hd hb
    have hbne : (parsedBitrate i : ℚ) ≠ 0 := Int.cast_ne_zero.mpr hb.ne'
    constructor
    · simp [get_duration_and_bitrate, hd, hb, hb.ne']
    · field_simp
  · intro hd hb
    simp [get_duration_and_bitrate, hd.ne', hb.ne', hd, hb]

/-- C7 witness: an unparseable header with a 24 000-byte file yields the
fixed 192 kbps and the derived one-second duration. -/
theorem get_duration_and_bitrate_three_tier_witness :
    get_duration_and_bitrate ⟨some ⟨none, none⟩, some 24000⟩ = (1, 192) := by
  have h := (get_duration_and_bitrate_three_tier ⟨none, none⟩ 24000).1 ⟨rfl, rfl⟩
  rw [h]
  norm_num

/-- C8 amended, witness on a one-record list. -/
theorem analyze_library_bitrate_average_witness :
    (analyze_library [recPos]).bitrate_promedio_kbps =
      pyRound1 ((((([recPos].filter (fun m => m.bitrate > 0)).map (·.bitrate)).sum : ℤ) : ℚ) /
        (([recPos] : List AudioMetadataRecord).length : ℚ)) :=
  analyze_library_bitrate_average [recPos] (by simp)

end AudioAnalysis
